import Mathlib

/-!
Shallow embedding of the polling / readiness-gate / query helpers of the
hands-on-debezium repository.

Time model: the loops in the source are of the form
  `const start = Date.now(); while (Date.now() - start < maxWaitMs) { probe; sleep(interval) }`
where each probe attempt is instantaneous and time advances only by the
`setTimeout(pollIntervalMs)` sleeps.  So at the check preceding attempt `k`
the elapsed time is `k * pollIntervalMs`.  Network effects (the probe calls)
are modelled as a trace `Nat → ...` giving the outcome of the k-th attempt.

Each loop is embedded through `loopUntil`, structurally recursive on a fuel
argument; the top-level functions pass the fuel `maxWaitMs.toNat + 1`, which
is proved sufficient whenever the poll interval is positive
(`loopUntil_isSome`), so the outer `Option` (`none` = fuel exhausted) is
never `none` in any claimed execution.
-/

/-- Generic poll loop.  `found k` is the outcome of the k-th probe attempt
mapped to `Option β`: `some b` means the loop body executes `return` with
payload `b`, `none` means the body falls through to the sleep.  Returns
`some (result, k)` where `k` is the attempt index at which the loop exited:
on success at attempt `j` the result is `(some b, j)` (elapsed `j * interval`,
attempts 0..j made); on deadline exhaustion at the check before attempt `k`
the result is `(none, k)` (elapsed `k * interval`, attempts 0..k-1 made).
The outer `none` means the fuel ran out. -/
def loopUntil (found : Nat → Option β) (maxWaitMs pollIntervalMs : Int) :
    Nat → Nat → Option (Option β × Nat)
  | 0, _ => none
  | fuel + 1, k =>
    if (k : Int) * pollIntervalMs < maxWaitMs then
      match found k with
      | some b => some (some b, k)
      | none => loopUntil found maxWaitMs pollIntervalMs fuel (k + 1)
    else
      some (none, k)

/-- From tests/iceberg-sink.test.ts, `pollTrinoUntilFound`: repeatedly run
`executeTrinoQuery(query)` (inside try/catch: a thrown query error is
swallowed and polling continues), return `true` as soon as
`result.data.length > 0`, and `false` once `Date.now() - startTime`
reaches `maxWaitMs`.  The probe trace gives the k-th query outcome:
`Except.error ()` = the query threw, `Except.ok rows` = it returned rows.
The `Nat` in the result is the exit attempt index of the time model. -/
def trinoFound (probe : Nat → Except Unit (List String)) (k : Nat) : Option Bool :=
  match probe k with
  | Except.ok result => if result.length > 0 then some true else none
  | Except.error _ => none

def pollTrinoUntilFound (probe : Nat → Except Unit (List String))
    (maxWaitMs pollIntervalMs : Int) : Option (Bool × Nat) :=
  (loopUntil (trinoFound probe) maxWaitMs pollIntervalMs (maxWaitMs.toNat + 1) 0).map
    (fun r => (r.1.getD false, r.2))

/-- From the Elasticsearch sink test, `pollEsUntilFound`: repeatedly run
`searchDocuments(esClient, index, {term: {[field]: value}})` (inside
try/catch: a thrown search error is swallowed), return `true` as soon as
`results.length > 0`, and `false` on deadline.  The client, index, field and
value arguments are folded into the probe trace. -/
def esFound (probe : Nat → Except Unit (List String)) (k : Nat) : Option Bool :=
  match probe k with
  | Except.ok results => if results.length > 0 then some true else none
  | Except.error _ => none

def pollEsUntilFound (probe : Nat → Except Unit (List String))
    (maxWaitMs pollIntervalMs : Int) : Option (Bool × Nat) :=
  (loopUntil (esFound probe) maxWaitMs pollIntervalMs (maxWaitMs.toNat + 1) 0).map
    (fun r => (r.1.getD false, r.2))

/-- From tests/redis-sink.test.ts, `pollRedisForId`: repeatedly run
`redis.get(key)` (NO try/catch in the source), return the value as soon as
it is not null, and `null` on deadline.  The probe trace gives the k-th
`get` result by its declared interface `string | null`, i.e.
`Option String`; `pollRedisForIdE` below additionally models a rejecting
`get`. -/
def pollRedisForId (probe : Nat → Option String)
    (maxWaitMs pollIntervalMs : Int) : Option (Option String × Nat) :=
  loopUntil probe maxWaitMs pollIntervalMs (maxWaitMs.toNat + 1) 0

/-- Loop of `pollRedisForIdE`: same loop as `pollRedisForId` but the probe
may reject (`Except.error`).  Because the source body has no try/catch, a
rejected `await redis.get(key)` propagates out of the function: the loop
exits with `Except.error` at that attempt. -/
def pollRedisForIdEAux (probe : Nat → Except Unit (Option String))
    (maxWaitMs pollIntervalMs : Int) :
    Nat → Nat → Option (Except Unit (Option String) × Nat)
  | 0, _ => none
  | fuel + 1, k =>
    if (k : Int) * pollIntervalMs < maxWaitMs then
      match probe k with
      | Except.error e => some (Except.error e, k)
      | Except.ok (some v) => some (Except.ok (some v), k)
      | Except.ok none => pollRedisForIdEAux probe maxWaitMs pollIntervalMs fuel (k + 1)
    else
      some (Except.ok none, k)

/-- `pollRedisForId` with a probe that can reject, exposing JavaScript
exception propagation: `some (Except.error e, k)` means the poller itself
threw at attempt `k`. -/
def pollRedisForIdE (probe : Nat → Except Unit (Option String))
    (maxWaitMs pollIntervalMs : Int) : Option (Except Unit (Option String) × Nat) :=
  pollRedisForIdEAux probe maxWaitMs pollIntervalMs (maxWaitMs.toNat + 1) 0

/-- Shape of the JSON returned by `GET /connectors/{name}/status`
(src/db.ts `getConnectorStatus`): overall `connector.state` plus the list
of `tasks[i].state`. -/
structure ConnectorStatus where
  connector : String
  tasks : List String
deriving DecidableEq, Repr

/-- The readiness condition checked inside `waitForConnectorRunning`:
`status.connector.state === 'RUNNING' && status.tasks.every((t) => t.state === 'RUNNING')`. -/
def connectorReady (status : ConnectorStatus) : Bool :=
  status.connector == "RUNNING" && status.tasks.all (fun t => t == "RUNNING")

/-- A status-probe outcome considered "running" by the gate: the check
returned (did not throw) a status satisfying `connectorReady`. -/
def statusRunning (r : Except Unit ConnectorStatus) : Bool :=
  match r with
  | Except.ok status => connectorReady status
  | Except.error _ => false

/-- The message of the error thrown by `waitForConnectorRunning` on timeout:
`Connector ${name} did not reach RUNNING state within ${timeoutMs}ms`. -/
def connectorTimeoutMsg (name : String) (timeoutMs : Int) : String :=
  "Connector " ++ (name ++ (" did not reach RUNNING state within " ++ (toString timeoutMs ++ "ms")))

/-- From src/db.ts, `waitForConnectorRunning`: poll `getConnectorStatus`
once per second (fixed 1000 ms sleep); a thrown status check is swallowed
("Connector not ready yet"); return normally as soon as the status
satisfies `connectorReady`; after the timeout throw the timeout error.
Result: `some (Except.ok (), k)` = returned after the check at attempt `k`;
`some (Except.error msg, k)` = threw `msg` after `k` checks. -/
def connFound (probe : Nat → Except Unit ConnectorStatus) (k : Nat) : Option Unit :=
  match probe k with
  | Except.ok status => if connectorReady status then some () else none
  | Except.error _ => none

def waitForConnectorRunning (probe : Nat → Except Unit ConnectorStatus)
    (name : String) (timeoutMs : Int) : Option (Except String Unit × Nat) :=
  (loopUntil (connFound probe) timeoutMs 1000 (timeoutMs.toNat + 1) 0).map
    (fun r =>
      match r.1 with
      | some _ => (Except.ok (), r.2)
      | none => (Except.error (connectorTimeoutMsg name timeoutMs), r.2))

/-- The message of the error thrown by `waitForIndex` on timeout:
`Index ${indexName} did not appear within ${timeoutMs}ms`. -/
def indexTimeoutMsg (indexName : String) (timeoutMs : Int) : String :=
  "Index " ++ (indexName ++ (" did not appear within " ++ (toString timeoutMs ++ "ms")))

/-- From src/elasticsearch.ts, `waitForIndex`: poll
`client.indices.exists({index})` once per second (throws swallowed), return
once it is true, throw the timeout error after `timeoutMs`. -/
def indexFound (probe : Nat → Except Unit Bool) (k : Nat) : Option Unit :=
  match probe k with
  | Except.ok exists1 => if exists1 then some () else none
  | Except.error _ => none

def waitForIndex (probe : Nat → Except Unit Bool)
    (indexName : String) (timeoutMs : Int) : Option (Except String Unit × Nat) :=
  (loopUntil (indexFound probe) timeoutMs 1000 (timeoutMs.toNat + 1) 0).map
    (fun r =>
      match r.1 with
      | some _ => (Except.ok (), r.2)
      | none => (Except.error (indexTimeoutMsg indexName timeoutMs), r.2))

/-- The message of the error thrown by `waitForDocumentCount` on timeout:
`Index ${indexName} did not reach ${expectedCount} documents within ${timeoutMs}ms`. -/
def docCountTimeoutMsg (indexName : String) (expectedCount : Nat) (timeoutMs : Int) : String :=
  "Index " ++ (indexName ++ (" did not reach " ++ (toString expectedCount ++
    (" documents within " ++ (toString timeoutMs ++ "ms")))))

/-- From src/elasticsearch.ts, `waitForDocumentCount`: poll
`client.count({index})` once per second (throws swallowed), return once
`response.count >= expectedCount`, throw the timeout error after
`timeoutMs`. -/
def docCountFound (probe : Nat → Except Unit Nat) (expectedCount : Nat) (k : Nat) :
    Option Unit :=
  match probe k with
  | Except.ok count => if expectedCount ≤ count then some () else none
  | Except.error _ => none

def waitForDocumentCount (probe : Nat → Except Unit Nat)
    (indexName : String) (expectedCount : Nat) (timeoutMs : Int) :
    Option (Except String Unit × Nat) :=
  (loopUntil (docCountFound probe expectedCount) timeoutMs 1000 (timeoutMs.toNat + 1) 0).map
    (fun r =>
      match r.1 with
      | some _ => (Except.ok (), r.2)
      | none => (Except.error (docCountTimeoutMsg indexName expectedCount timeoutMs), r.2))

/-- HTTP response as far as the registration path observes it. -/
structure ConnResponse where
  status : Nat
deriving DecidableEq, Repr

/-- From src/db.ts, `createConnector`: issue a single
`fetch(baseUrl + "/connectors", {method: POST, body: config})` and return
the raw response to the caller unchanged — no status-code branching, no
retry, no exception on non-2xx.  The fetch effect is the argument. -/
def createConnector (fetchResult : ConnResponse) : ConnResponse :=
  fetchResult

/-- From tests/debezium.test.ts (`should create PostgreSQL source
connector`): the registration outcome accepted as success is
`expect([201, 409]).toContain(response.status)`. -/
def registrationAccepted (response : ConnResponse) : Bool :=
  [201, 409].contains response.status

/-- Substring containment as an explicit decomposition. -/
def containsStr (s sub : String) : Prop :=
  ∃ p q, s = p ++ (sub ++ q)

/- ------------------------------------------------------------------ -/
/- Arithmetic helpers for the fuel induction.                          -/
/- ------------------------------------------------------------------ -/

theorem fuel_step (mw itv a : Int) (f : Nat) (hitv : 0 < itv) (hc : a < mw)
    (h : (mw - a).toNat < f + 1) : (mw - (a + itv)).toNat < f := by
  omega

theorem cast_succ_mul (k : Nat) (itv : Int) :
    ((k + 1 : Nat) : Int) * itv = (k : Int) * itv + itv := by
  push_cast
  ring

theorem fuel_start (mw itv : Int) : (mw - (0 : Nat) * itv).toNat < mw.toNat + 1 := by
  push_cast
  omega

/-- Fuel sufficiency: with a positive poll interval the loop always exits
within `(mw - k*itv).toNat` further iterations — the loop never hangs. -/
theorem loopUntil_isSome (found : Nat → Option β) (mw itv : Int) (hitv : 0 < itv) :
    ∀ fuel k : Nat, (mw - (k : Int) * itv).toNat < fuel →
      (loopUntil found mw itv fuel k).isSome := by
  intro fuel
  induction fuel with
  | zero => intro k h; exact absurd h (Nat.not_lt_zero _)
  | succ f ih =>
    intro k h
    by_cases hc : (k : Int) * itv < mw
    · cases hfk : found k with
      | some b => simp [loopUntil, if_pos hc, hfk]
      | none =>
        have hf : (mw - ((k + 1 : Nat) : Int) * itv).toNat < f := by
          rw [cast_succ_mul]
          exact fuel_step mw itv _ f hitv hc h
        simpa [loopUntil, if_pos hc, hfk] using ih (k + 1) hf
    · simp [loopUntil, if_neg hc]

/-- If no attempt ever succeeds, the loop exits by the deadline check, at
the first attempt index whose elapsed time reaches `mw`. -/
theorem loopUntil_timeout (found : Nat → Option β) (mw itv : Int) (hitv : 0 < itv)
    (hnone : ∀ j, found j = none) :
    ∀ fuel k : Nat, (mw - (k : Int) * itv).toNat < fuel →
      ∃ j, loopUntil found mw itv fuel k = some (none, j) ∧
        mw ≤ (j : Int) * itv ∧ ((j : Int) * itv < mw + itv ∨ j = k) := by
  intro fuel
  induction fuel with
  | zero => intro k h; exact absurd h (Nat.not_lt_zero _)
  | succ f ih =>
    intro k h
    by_cases hc : (k : Int) * itv < mw
    · have hf : (mw - ((k + 1 : Nat) : Int) * itv).toNat < f := by
        rw [cast_succ_mul]
        exact fuel_step mw itv _ f hitv hc h
      obtain ⟨j, hj, hj1, hj2⟩ := ih (k + 1) hf
      refine ⟨j, ?_, hj1, ?_⟩
      · simpa [loopUntil, if_pos hc, hnone k] using hj
      · rcases hj2 with h2 | h2
        · exact Or.inl h2
        · subst h2
          left
          rw [cast_succ_mul]
          linarith
    · exact ⟨k, by simp [loopUntil, if_neg hc], le_of_not_lt hc, Or.inr rfl⟩

/-- Top-level form of `loopUntil_timeout`: starting from attempt 0 with a
nonnegative deadline, the exit time lands in `[mw, mw + itv)`. -/
theorem loopUntil_timeout_top (found : Nat → Option β) (mw itv : Int)
    (hmw : 0 ≤ mw) (hitv : 0 < itv) (hnone : ∀ j, found j = none) :
    ∃ j, loopUntil found mw itv (mw.toNat + 1) 0 = some (none, j) ∧
      mw ≤ (j : Int) * itv ∧ (j : Int) * itv < mw + itv := by
  obtain ⟨j, hj, hj1, hj2⟩ :=
    loopUntil_timeout found mw itv hitv hnone (mw.toNat + 1) 0 (fuel_start mw itv)
  refine ⟨j, hj, hj1, ?_⟩
  rcases hj2 with h2 | h2
  · exact h2
  · subst h2
    push_cast
    linarith

/-- If attempts before `j` all fall through, attempt `j` succeeds with `b`,
and `j`'s check time is still before the deadline, the loop exits at `j`
with `b` — no further attempts, no further sleeps. -/
theorem loopUntil_reach (found : Nat → Option β) (mw itv : Int) (hitv : 0 < itv)
    (j : Nat) (b : β) (hj : found j = some b) (hjc : (j : Int) * itv < mw) :
    ∀ fuel k : Nat, k ≤ j → (∀ i, k ≤ i → i < j → found i = none) →
      (mw - (k : Int) * itv).toNat < fuel →
      loopUntil found mw itv fuel k = some (some b, j) := by
  intro fuel
  induction fuel with
  | zero => intro k _ _ h; exact absurd h (Nat.not_lt_zero _)
  | succ f ih =>
    intro k hkj hnone h
    have hmono : (k : Int) * itv ≤ (j : Int) * itv :=
      mul_le_mul_of_nonneg_right (by exact_mod_cast hkj) (le_of_lt hitv)
    have hc : (k : Int) * itv < mw := lt_of_le_of_lt hmono hjc
    rcases Nat.eq_or_lt_of_le hkj with heq | hlt
    · subst heq
      simp [loopUntil, if_pos hc, hj]
    · have hk : found k = none := hnone k le_rfl hlt
      have hf : (mw - ((k + 1 : Nat) : Int) * itv).toNat < f := by
        rw [cast_succ_mul]
        exact fuel_step mw itv _ f hitv hc h
      simpa [loopUntil, if_pos hc, hk] using
        ih (k + 1) hlt (fun i h1 h2 => hnone i (Nat.le_of_succ_le h1) h2) hf

/-- Inversion: a successful exit happened at an attempt that succeeded and
whose check time was before the deadline. -/
theorem loopUntil_some_inv (found : Nat → Option β) (mw itv : Int) :
    ∀ (fuel k j : Nat) (b : β), loopUntil found mw itv fuel k = some (some b, j) →
      found j = some b ∧ (j : Int) * itv < mw := by
  intro fuel
  induction fuel with
  | zero => intro k j b h; simp [loopUntil] at h
  | succ f ih =>
    intro k j b h
    by_cases hc : (k : Int) * itv < mw
    · cases hfk : found k with
      | some b0 =>
        simp only [loopUntil, if_pos hc, hfk, Option.some.injEq, Prod.mk.injEq] at h
        obtain ⟨h1, h2⟩ := h
        subst h1
        subst h2
        exact ⟨hfk, hc⟩
      | none =>
        simp only [loopUntil, if_pos hc, hfk] at h
        exact ih _ _ _ h
    · simp only [loopUntil, if_neg hc, Option.some.injEq, Prod.mk.injEq] at h
      exact absurd h.1 (by simp)

/-- With a nonpositive deadline the very first check fails: the loop exits
immediately with the sentinel and zero attempts made. -/
theorem loopUntil_nonpos (found : Nat → Option β) (mw itv : Int) (hmw : mw ≤ 0)
    (fuel : Nat) : loopUntil found mw itv (fuel + 1) 0 = some (none, 0) := by
  have hc : ¬ ((0 : Nat) : Int) * itv < mw := by push_cast; omega
  simp only [loopUntil]
  rw [if_neg hc]

/-- With a probe whose every attempt returns null (no rejection), the
enriched Redis loop exits by the deadline check with the null sentinel as a
normal return value. -/
theorem pollRedisForIdEAux_timeout (probe : Nat → Except Unit (Option String))
    (mw itv : Int) (hitv : 0 < itv) (hnull : ∀ j, probe j = Except.ok none) :
    ∀ fuel k : Nat, (mw - (k : Int) * itv).toNat < fuel →
      ∃ j, pollRedisForIdEAux probe mw itv fuel k = some (Except.ok none, j) ∧
        mw ≤ (j : Int) * itv ∧ ((j : Int) * itv < mw + itv ∨ j = k) := by
  intro fuel
  induction fuel with
  | zero => intro k h; exact absurd h (Nat.not_lt_zero _)
  | succ f ih =>
    intro k h
    by_cases hc : (k : Int) * itv < mw
    · have hf : (mw - ((k + 1 : Nat) : Int) * itv).toNat < f := by
        rw [cast_succ_mul]
        exact fuel_step mw itv _ f hitv hc h
      obtain ⟨j, hj, hj1, hj2⟩ := ih (k + 1) hf
      refine ⟨j, ?_, hj1, ?_⟩
      · simpa [pollRedisForIdEAux, if_pos hc, hnull k] using hj
      · rcases hj2 with h2 | h2
        · exact Or.inl h2
        · subst h2
          left
          rw [cast_succ_mul]
          linarith
    · exact ⟨k, by simp [pollRedisForIdEAux, if_neg hc], le_of_not_lt hc, Or.inr rfl⟩

/-- If attempts before `j` return null and attempt `j` returns a value
before the deadline, the enriched Redis loop exits at `j` with that value. -/
theorem pollRedisForIdEAux_found (probe : Nat → Except Unit (Option String))
    (mw itv : Int) (hitv : 0 < itv) (j : Nat) (v : String)
    (hj : probe j = Except.ok (some v)) (hjc : (j : Int) * itv < mw) :
    ∀ fuel k : Nat, k ≤ j → (∀ i, k ≤ i → i < j → probe i = Except.ok none) →
      (mw - (k : Int) * itv).toNat < fuel →
      pollRedisForIdEAux probe mw itv fuel k = some (Except.ok (some v), j) := by
  intro fuel
  induction fuel with
  | zero => intro k _ _ h; exact absurd h (Nat.not_lt_zero _)
  | succ f ih =>
    intro k hkj hnull h
    have hmono : (k : Int) * itv ≤ (j : Int) * itv :=
      mul_le_mul_of_nonneg_right (by exact_mod_cast hkj) (le_of_lt hitv)
    have hc : (k : Int) * itv < mw := lt_of_le_of_lt hmono hjc
    rcases Nat.eq_or_lt_of_le hkj with heq | hlt
    · subst heq
      simp [pollRedisForIdEAux, if_pos hc, hj]
    · have hk : probe k = Except.ok none := hnull k le_rfl hlt
      have hf : (mw - ((k + 1 : Nat) : Int) * itv).toNat < f := by
        rw [cast_succ_mul]
        exact fuel_step mw itv _ f hitv hc h
      simpa [pollRedisForIdEAux, if_pos hc, hk] using
        ih (k + 1) hlt (fun i h1 h2 => hnull i (Nat.le_of_succ_le h1) h2) hf

/-- If attempts before `j` return null and attempt `j` rejects before the
deadline, the enriched Redis loop exits at `j` by propagating the
rejection — the failure is surfaced, not swallowed. -/
theorem pollRedisForIdEAux_raises (probe : Nat → Except Unit (Option String))
    (mw itv : Int) (hitv : 0 < itv) (j : Nat) (e : Unit)
    (hj : probe j = Except.error e) (hjc : (j : Int) * itv < mw) :
    ∀ fuel k : Nat, k ≤ j → (∀ i, k ≤ i → i < j → probe i = Except.ok none) →
      (mw - (k : Int) * itv).toNat < fuel →
      pollRedisForIdEAux probe mw itv fuel k = some (Except.error e, j) := by
  intro fuel
  induction fuel with
  | zero => intro k _ _ h; exact absurd h (Nat.not_lt_zero _)
  | succ f ih =>
    intro k hkj hnull h
    have hmono : (k : Int) * itv ≤ (j : Int) * itv :=
      mul_le_mul_of_nonneg_right (by exact_mod_cast hkj) (le_of_lt hitv)
    have hc : (k : Int) * itv < mw := lt_of_le_of_lt hmono hjc
    rcases Nat.eq_or_lt_of_le hkj with heq | hlt
    · subst heq
      simp [pollRedisForIdEAux, if_pos hc, hj]
    · have hk : probe k = Except.ok none := hnull k le_rfl hlt
      have hf : (mw - ((k + 1 : Nat) : Int) * itv).toNat < f := by
        rw [cast_succ_mul]
        exact fuel_step mw itv _ f hitv hc h
      simpa [pollRedisForIdEAux, if_pos hc, hk] using
        ih (k + 1) hlt (fun i h1 h2 => hnull i (Nat.le_of_succ_le h1) h2) hf

/-- Column metadata as recorded by `executeTrinoQuery`:
`columns.push({ name: col.name, type: col.type })`. -/
structure TrinoColumn where
  name : String
  type : String
deriving DecidableEq, Repr

/-- One element yielded by the `trino-client` result iterator: its optional
`columns` field and its optional `data` field (a list of rows, each row a
positional list of cell values; `α` is the cell type). -/
structure TrinoPage (α : Type) where
  columns : Option (List TrinoColumn)
  data : Option (List (List α))
deriving DecidableEq, Repr

/-- The inner row loop of `executeTrinoQuery`:
`for (let i = 0; i < columns.length; i++) obj[col.name] = row[i]` — the
object is the positional pairing of the recorded column names with the row
values; a missing `row[i]` is JavaScript `undefined`, modelled as `none`. -/
def rowToObj (columns : List TrinoColumn) (row : List α) : List (String × Option α) :=
  columns.enum.map (fun ic => (ic.2.name, row.get? ic.1))

/-- The `for await` loop of `executeTrinoQuery` over the remaining pages,
carrying the `columns` and `allData` accumulators:
columns are captured from a page's `columns` field only while none have been
recorded yet (`queryResult.columns && columns.length === 0`), and each
page's rows are appended to `allData` converted by `rowToObj`. -/
def executeTrinoQueryAux : List (TrinoPage α) → List TrinoColumn →
    List (List (String × Option α)) → List TrinoColumn × List (List (String × Option α))
  | [], columns, allData => (columns, allData)
  | page :: rest, columns, allData =>
    let columns1 :=
      match page.columns with
      | some cs => if columns.length == 0 then cs else columns
      | none => columns
    let allData1 :=
      match page.data with
      | some rows => allData ++ rows.map (rowToObj columns1)
      | none => allData
    executeTrinoQueryAux rest columns1 allData1

/-- From src/trino.ts, `executeTrinoQuery`: eagerly drain the paginated
result iterator and return the recorded column metadata together with all
converted rows in arrival order. -/
def executeTrinoQuery (pages : List (TrinoPage α)) :
    List TrinoColumn × List (List (String × Option α)) :=
  executeTrinoQueryAux pages [] []

/-- All data rows carried by a list of pages, in arrival order. -/
def pageRows (pages : List (TrinoPage α)) : List (List α) :=
  (pages.map (fun p => p.data.getD [])).flatten

/-- Once nonempty columns are recorded they never change, and every further
row is paired against them. -/
theorem executeTrinoQueryAux_fixed (pages : List (TrinoPage α))
    (cs : List TrinoColumn) (hcs : cs ≠ []) :
    ∀ acc, executeTrinoQueryAux pages cs acc =
      (cs, acc ++ (pageRows pages).map (rowToObj cs)) := by
  induction pages with
  | nil => intro acc; simp [executeTrinoQueryAux, pageRows]
  | cons page rest ih =>
    intro acc
    have hlen : (cs.length == 0) = false := by
      simp [List.length_eq_zero]
      exact hcs
    cases hpc : page.columns with
    | some cs0 =>
      cases hpd : page.data with
      | some rows =>
        simp only [executeTrinoQueryAux, hpc, hpd, hlen, Bool.false_eq_true, if_false]
        rw [ih]
        simp [pageRows, hpd, List.map_append, List.append_assoc]
      | none =>
        simp only [executeTrinoQueryAux, hpc, hpd, hlen, Bool.false_eq_true, if_false]
        rw [ih]
        simp [pageRows, hpd]
    | none =>
      cases hpd : page.data with
      | some rows =>
        simp only [executeTrinoQueryAux, hpc, hpd]
        rw [ih]
        simp [pageRows, hpd, List.map_append, List.append_assoc]
      | none =>
        simp only [executeTrinoQueryAux, hpc, hpd]
        rw [ih]
        simp [pageRows, hpd]

/- ------------------------------------------------------------------ -/
/- Bridge lemmas between probe traces and the loop-body checks.        -/
/- ------------------------------------------------------------------ -/

theorem trinoFound_none (probe : Nat → Except Unit (List String)) (j : Nat)
    (h : ∀ rows, probe j = Except.ok rows → rows = []) : trinoFound probe j = none := by
  unfold trinoFound
  cases hpj : probe j with
  | ok rows =>
    have := h rows hpj
    subst this
    simp
  | error e => simp

theorem trinoFound_some (probe : Nat → Except Unit (List String)) (j : Nat)
    (rows : List String) (hpj : probe j = Except.ok rows) (hrows : 0 < rows.length) :
    trinoFound probe j = some true := by
  unfold trinoFound
  rw [hpj]
  simp [hrows]

theorem esFound_none (probe : Nat → Except Unit (List String)) (j : Nat)
    (h : ∀ rows, probe j = Except.ok rows → rows = []) : esFound probe j = none := by
  unfold esFound
  cases hpj : probe j with
  | ok rows =>
    have := h rows hpj
    subst this
    simp
  | error e => simp

theorem esFound_some (probe : Nat → Except Unit (List String)) (j : Nat)
    (results : List String) (hpj : probe j = Except.ok results) (hres : 0 < results.length) :
    esFound probe j = some true := by
  unfold esFound
  rw [hpj]
  simp [hres]

theorem connFound_eq_some (probe : Nat → Except Unit ConnectorStatus) (k : Nat) :
    connFound probe k = some () ↔ statusRunning (probe k) = true := by
  unfold connFound statusRunning
  cases hpk : probe k with
  | ok status =>
    by_cases hr : connectorReady status
    · simp [hr]
    · simp [hr]
  | error e => simp

/- ------------------------------------------------------------------ -/
/- Behaviour of the top-level helpers, assembled from the loop lemmas. -/
/- ------------------------------------------------------------------ -/

theorem pollTrino_timeout (probe : Nat → Except Unit (List String)) (mw itv : Int)
    (hmw : 0 ≤ mw) (hitv : 0 < itv)
    (h : ∀ k rows, probe k = Except.ok rows → rows = []) :
    ∃ k : Nat, pollTrinoUntilFound probe mw itv = some (false, k) ∧
      mw ≤ (k : Int) * itv ∧ (k : Int) * itv < mw + itv := by
  obtain ⟨j, hj, h1, h2⟩ := loopUntil_timeout_top (trinoFound probe) mw itv hmw hitv
    (fun j => trinoFound_none probe j (h j))
  refine ⟨j, ?_, h1, h2⟩
  unfold pollTrinoUntilFound
  rw [hj]
  rfl

theorem pollEs_timeout (probe : Nat → Except Unit (List String)) (mw itv : Int)
    (hmw : 0 ≤ mw) (hitv : 0 < itv)
    (h : ∀ k rows, probe k = Except.ok rows → rows = []) :
    ∃ k : Nat, pollEsUntilFound probe mw itv = some (false, k) ∧
      mw ≤ (k : Int) * itv ∧ (k : Int) * itv < mw + itv := by
  obtain ⟨j, hj, h1, h2⟩ := loopUntil_timeout_top (esFound probe) mw itv hmw hitv
    (fun j => esFound_none probe j (h j))
  refine ⟨j, ?_, h1, h2⟩
  unfold pollEsUntilFound
  rw [hj]
  rfl

theorem pollRedis_timeout (probe : Nat → Option String) (mw itv : Int)
    (hmw : 0 ≤ mw) (hitv : 0 < itv) (h : ∀ k, probe k = none) :
    ∃ k : Nat, pollRedisForId probe mw itv = some (none, k) ∧
      mw ≤ (k : Int) * itv ∧ (k : Int) * itv < mw + itv := by
  obtain ⟨j, hj, h1, h2⟩ := loopUntil_timeout_top probe mw itv hmw hitv h
  exact ⟨j, hj, h1, h2⟩

theorem pollRedisE_timeout (probe : Nat → Except Unit (Option String)) (mw itv : Int)
    (hmw : 0 ≤ mw) (hitv : 0 < itv) (h : ∀ k, probe k = Except.ok none) :
    ∃ k : Nat, pollRedisForIdE probe mw itv = some (Except.ok none, k) ∧
      mw ≤ (k : Int) * itv ∧ (k : Int) * itv < mw + itv := by
  obtain ⟨j, hj, h1, h2⟩ := pollRedisForIdEAux_timeout probe mw itv hitv h
    (mw.toNat + 1) 0 (fuel_start mw itv)
  refine ⟨j, hj, h1, ?_⟩
  rcases h2 with h2 | h2
  · exact h2
  · subst h2
    push_cast
    linarith

theorem pollTrino_found (probe : Nat → Except Unit (List String)) (mw itv : Int)
    (hitv : 0 < itv) (j : Nat) (rows : List String)
    (hbefore : ∀ i, i < j → ∀ rs, probe i = Except.ok rs → rs = [])
    (hj : probe j = Except.ok rows) (hrows : 0 < rows.length)
    (hjc : (j : Int) * itv < mw) :
    pollTrinoUntilFound probe mw itv = some (true, j) := by
  have hreach := loopUntil_reach (trinoFound probe) mw itv hitv j true
    (trinoFound_some probe j rows hj hrows) hjc (mw.toNat + 1) 0 (Nat.zero_le j)
    (fun i _ h2 => trinoFound_none probe i (hbefore i h2)) (fuel_start mw itv)
  unfold pollTrinoUntilFound
  rw [hreach]
  rfl

theorem pollEs_found (probe : Nat → Except Unit (List String)) (mw itv : Int)
    (hitv : 0 < itv) (j : Nat) (results : List String)
    (hbefore : ∀ i, i < j → ∀ rs, probe i = Except.ok rs → rs = [])
    (hj : probe j = Except.ok results) (hres : 0 < results.length)
    (hjc : (j : Int) * itv < mw) :
    pollEsUntilFound probe mw itv = some (true, j) := by
  have hreach := loopUntil_reach (esFound probe) mw itv hitv j true
    (esFound_some probe j results hj hres) hjc (mw.toNat + 1) 0 (Nat.zero_le j)
    (fun i _ h2 => esFound_none probe i (hbefore i h2)) (fuel_start mw itv)
  unfold pollEsUntilFound
  rw [hreach]
  rfl

theorem pollRedis_found (probe : Nat → Option String) (mw itv : Int)
    (hitv : 0 < itv) (j : Nat) (v : String)
    (hbefore : ∀ i, i < j → probe i = none)
    (hj : probe j = some v) (hjc : (j : Int) * itv < mw) :
    pollRedisForId probe mw itv = some (some v, j) :=
  loopUntil_reach probe mw itv hitv j v hj hjc (mw.toNat + 1) 0 (Nat.zero_le j)
    (fun i _ h2 => hbefore i h2) (fuel_start mw itv)

theorem pollRedisE_found (probe : Nat → Except Unit (Option String)) (mw itv : Int)
    (hitv : 0 < itv) (j : Nat) (v : String)
    (hbefore : ∀ i, i < j → probe i = Except.ok none)
    (hj : probe j = Except.ok (some v)) (hjc : (j : Int) * itv < mw) :
    pollRedisForIdE probe mw itv = some (Except.ok (some v), j) :=
  pollRedisForIdEAux_found probe mw itv hitv j v hj hjc (mw.toNat + 1) 0 (Nat.zero_le j)
    (fun i _ h2 => hbefore i h2) (fuel_start mw itv)

theorem pollRedisE_raises (probe : Nat → Except Unit (Option String)) (mw itv : Int)
    (hitv : 0 < itv) (j : Nat) (e : Unit)
    (hbefore : ∀ i, i < j → probe i = Except.ok none)
    (hj : probe j = Except.error e) (hjc : (j : Int) * itv < mw) :
    pollRedisForIdE probe mw itv = some (Except.error e, j) :=
  pollRedisForIdEAux_raises probe mw itv hitv j e hj hjc (mw.toNat + 1) 0 (Nat.zero_le j)
    (fun i _ h2 => hbefore i h2) (fuel_start mw itv)

theorem pollTrino_nonpos (probe : Nat → Except Unit (List String)) (mw itv : Int)
    (hmw : mw ≤ 0) : pollTrinoUntilFound probe mw itv = some (false, 0) := by
  unfold pollTrinoUntilFound
  rw [Int.toNat_of_nonpos hmw, loopUntil_nonpos _ mw itv hmw 0]
  rfl

theorem pollEs_nonpos (probe : Nat → Except Unit (List String)) (mw itv : Int)
    (hmw : mw ≤ 0) : pollEsUntilFound probe mw itv = some (false, 0) := by
  unfold pollEsUntilFound
  rw [Int.toNat_of_nonpos hmw, loopUntil_nonpos _ mw itv hmw 0]
  rfl

theorem pollRedis_nonpos (probe : Nat → Option String) (mw itv : Int)
    (hmw : mw ≤ 0) : pollRedisForId probe mw itv = some (none, 0) := by
  unfold pollRedisForId
  rw [Int.toNat_of_nonpos hmw, loopUntil_nonpos _ mw itv hmw 0]

theorem waitRun_nonpos (probe : Nat → Except Unit ConnectorStatus) (name : String)
    (timeoutMs : Int) (hto : timeoutMs ≤ 0) :
    waitForConnectorRunning probe name timeoutMs =
      some (Except.error (connectorTimeoutMsg name timeoutMs), 0) := by
  unfold waitForConnectorRunning
  rw [Int.toNat_of_nonpos hto, loopUntil_nonpos _ timeoutMs 1000 hto 0]
  rfl

theorem waitRun_ok_inv (probe : Nat → Except Unit ConnectorStatus) (name : String)
    (timeoutMs : Int) (k : Nat)
    (h : waitForConnectorRunning probe name timeoutMs = some (Except.ok (), k)) :
    statusRunning (probe k) = true ∧ (k : Int) * 1000 < timeoutMs := by
  unfold waitForConnectorRunning at h
  obtain ⟨r, hr, hf⟩ := Option.map_eq_some'.mp h
  obtain ⟨r1, r2⟩ := r
  cases r1 with
  | some u =>
    simp only [Prod.mk.injEq] at hf
    have hk : r2 = k := hf.2
    subst hk
    obtain ⟨hfound, hlt⟩ := loopUntil_some_inv (connFound probe) timeoutMs 1000 _ _ _ _ hr
    exact ⟨(connFound_eq_some probe r2).mp hfound, hlt⟩
  | none => simp at hf

theorem waitRun_err_inv (probe : Nat → Except Unit ConnectorStatus) (name : String)
    (timeoutMs : Int) (k : Nat) (e : String)
    (h : waitForConnectorRunning probe name timeoutMs = some (Except.error e, k)) :
    e = connectorTimeoutMsg name timeoutMs := by
  unfold waitForConnectorRunning at h
  obtain ⟨r, hr, hf⟩ := Option.map_eq_some'.mp h
  obtain ⟨r1, r2⟩ := r
  cases r1 with
  | some u => simp at hf
  | none =>
    simp only [Prod.mk.injEq] at hf
    exact (Except.error.inj hf.1).symm

theorem waitIndex_err_inv (probe : Nat → Except Unit Bool) (indexName : String)
    (timeoutMs : Int) (k : Nat) (e : String)
    (h : waitForIndex probe indexName timeoutMs = some (Except.error e, k)) :
    e = indexTimeoutMsg indexName timeoutMs := by
  unfold waitForIndex at h
  obtain ⟨r, hr, hf⟩ := Option.map_eq_some'.mp h
  obtain ⟨r1, r2⟩ := r
  cases r1 with
  | some u => simp at hf
  | none =>
    simp only [Prod.mk.injEq] at hf
    exact (Except.error.inj hf.1).symm

theorem waitDocCount_err_inv (probe : Nat → Except Unit Nat) (indexName : String)
    (expectedCount : Nat) (timeoutMs : Int) (k : Nat) (e : String)
    (h : waitForDocumentCount probe indexName expectedCount timeoutMs =
      some (Except.error e, k)) :
    e = docCountTimeoutMsg indexName expectedCount timeoutMs := by
  unfold waitForDocumentCount at h
  obtain ⟨r, hr, hf⟩ := Option.map_eq_some'.mp h
  obtain ⟨r1, r2⟩ := r
  cases r1 with
  | some u => simp at hf
  | none =>
    simp only [Prod.mk.injEq] at hf
    exact (Except.error.inj hf.1).symm

theorem waitRun_reaches_ok (probe : Nat → Except Unit ConnectorStatus) (name : String)
    (timeoutMs : Int) (j : Nat)
    (hbefore : ∀ i, i < j → statusRunning (probe i) = false)
    (hj : statusRunning (probe j) = true) (hjc : (j : Int) * 1000 < timeoutMs) :
    waitForConnectorRunning probe name timeoutMs = some (Except.ok (), j) := by
  have hnone : ∀ i, 0 ≤ i → i < j → connFound probe i = none := by
    intro i _ hij
    have hfalse := hbefore i hij
    cases hci : connFound probe i with
    | none => rfl
    | some u =>
      cases u
      rw [(connFound_eq_some probe i).mp hci] at hfalse
      exact absurd hfalse (by simp)
  have hreach := loopUntil_reach (connFound probe) timeoutMs 1000 (by norm_num) j ()
    ((connFound_eq_some probe j).mpr hj) hjc (timeoutMs.toNat + 1) 0 (Nat.zero_le j)
    hnone (fuel_start timeoutMs 1000)
  unfold waitForConnectorRunning
  rw [hreach]
  rfl

theorem containsStr_of_append (p sub q : String) : containsStr (p ++ (sub ++ q)) sub :=
  ⟨p, q, rfl⟩

theorem connectorTimeoutMsg_contains_name (name : String) (timeoutMs : Int) :
    containsStr (connectorTimeoutMsg name timeoutMs) name :=
  containsStr_of_append _ name _

theorem connectorTimeoutMsg_contains_timeout (name : String) (timeoutMs : Int) :
    containsStr (connectorTimeoutMsg name timeoutMs) (toString timeoutMs) := by
  refine ⟨"Connector " ++ (name ++ " did not reach RUNNING state within "), "ms", ?_⟩
  unfold connectorTimeoutMsg
  rw [String.append_assoc, String.append_assoc]

theorem indexTimeoutMsg_contains_name (indexName : String) (timeoutMs : Int) :
    containsStr (indexTimeoutMsg indexName timeoutMs) indexName :=
  containsStr_of_append _ indexName _

theorem indexTimeoutMsg_contains_timeout (indexName : String) (timeoutMs : Int) :
    containsStr (indexTimeoutMsg indexName timeoutMs) (toString timeoutMs) := by
  refine ⟨"Index " ++ (indexName ++ " did not appear within "), "ms", ?_⟩
  unfold indexTimeoutMsg
  rw [String.append_assoc, String.append_assoc]

theorem docCountTimeoutMsg_contains_name (indexName : String) (expectedCount : Nat)
    (timeoutMs : Int) :
    containsStr (docCountTimeoutMsg indexName expectedCount timeoutMs) indexName :=
  containsStr_of_append _ indexName _

theorem docCountTimeoutMsg_contains_timeout (indexName : String) (expectedCount : Nat)
    (timeoutMs : Int) :
    containsStr (docCountTimeoutMsg indexName expectedCount timeoutMs) (toString timeoutMs) := by
  refine ⟨"Index " ++ (indexName ++ (" did not reach " ++ (toString expectedCount ++
    " documents within "))), "ms", ?_⟩
  unfold docCountTimeoutMsg
  rw [String.append_assoc, String.append_assoc, String.append_assoc, String.append_assoc]

theorem all_eq_of_perm (l l2 : List String) (p : String → Bool) (h : l.Perm l2) :
    l.all p = l2.all p := by
  rw [Bool.eq_iff_iff, List.all_eq_true, List.all_eq_true]
  exact ⟨fun H x hx => H x (h.mem_iff.mpr hx), fun H x hx => H x (h.mem_iff.mp hx)⟩

/- ------------------------------------------------------------------ -/
/- Claim theorems.                                                     -/
/- ------------------------------------------------------------------ -/

/-- C1: for every poller (pollTrinoUntilFound, pollEsUntilFound,
pollRedisForId), if no probe attempt ever returns a match, the poller
terminates and returns its "not found" sentinel (false or null) no earlier
than the configured maximum wait duration and within one poll interval
after it; it never loops forever.  (Probe attempts are taken to complete:
Trino/ES attempts may also throw — thrown attempts are swallowed — while a
throwing Redis attempt is the subject of the C4 correction.) -/
theorem pollers_deadline
    (tprobe eprobe : Nat → Except Unit (List String)) (rprobe : Nat → Option String)
    (mw itv : Int) (hmw : 0 ≤ mw) (hitv : 0 < itv)
    (hT : ∀ k rows, tprobe k = Except.ok rows → rows = [])
    (hE : ∀ k rows, eprobe k = Except.ok rows → rows = [])
    (hR : ∀ k, rprobe k = none) :
    (∃ k : Nat, pollTrinoUntilFound tprobe mw itv = some (false, k) ∧
        mw ≤ (k : Int) * itv ∧ (k : Int) * itv < mw + itv)
  ∧ (∃ k : Nat, pollEsUntilFound eprobe mw itv = some (false, k) ∧
        mw ≤ (k : Int) * itv ∧ (k : Int) * itv < mw + itv)
  ∧ (∃ k : Nat, pollRedisForId rprobe mw itv = some (none, k) ∧
        mw ≤ (k : Int) * itv ∧ (k : Int) * itv < mw + itv) :=
  ⟨pollTrino_timeout tprobe mw itv hmw hitv hT,
   pollEs_timeout eprobe mw itv hmw hitv hE,
   pollRedis_timeout rprobe mw itv hmw hitv hR⟩

/-- Witness for C1 at maxWait 5 ms, interval 2 ms: all pollers return the
sentinel at attempt 3 (elapsed 6 ms, inside [5, 7)). -/
theorem pollers_deadline_witness :
    (∃ k : Nat, pollTrinoUntilFound (fun _ => Except.ok []) 5 2 = some (false, k) ∧
        (5 : Int) ≤ (k : Int) * 2 ∧ (k : Int) * 2 < 5 + 2)
  ∧ (∃ k : Nat, pollEsUntilFound (fun _ => Except.error ()) 5 2 = some (false, k) ∧
        (5 : Int) ≤ (k : Int) * 2 ∧ (k : Int) * 2 < 5 + 2)
  ∧ (∃ k : Nat, pollRedisForId (fun _ => none) 5 2 = some (none, k) ∧
        (5 : Int) ≤ (k : Int) * 2 ∧ (k : Int) * 2 < 5 + 2) :=
  pollers_deadline (fun _ => Except.ok []) (fun _ => Except.error ()) (fun _ => none)
    5 2 (by norm_num) (by norm_num)
    (fun _ rows h => (Except.ok.inj h).symm)
    (fun _ rows h => Except.noConfusion h)
    (fun _ => rfl)

/-- C9: with a zero or negative maximum wait, every poller returns its
"not found" sentinel immediately with zero probe attempts, and
waitForConnectorRunning with a zero or negative timeout throws its timeout
error without performing a status check (exit attempt index 0). -/
theorem pollers_nonpositive_deadline
    (tprobe eprobe : Nat → Except Unit (List String)) (rprobe : Nat → Option String)
    (cprobe : Nat → Except Unit ConnectorStatus) (name : String)
    (mw itv timeoutMs : Int) (hmw : mw ≤ 0) (hto : timeoutMs ≤ 0) :
    pollTrinoUntilFound tprobe mw itv = some (false, 0)
  ∧ pollEsUntilFound eprobe mw itv = some (false, 0)
  ∧ pollRedisForId rprobe mw itv = some (none, 0)
  ∧ waitForConnectorRunning cprobe name timeoutMs =
      some (Except.error (connectorTimeoutMsg name timeoutMs), 0) :=
  ⟨pollTrino_nonpos tprobe mw itv hmw,
   pollEs_nonpos eprobe mw itv hmw,
   pollRedis_nonpos rprobe mw itv hmw,
   waitRun_nonpos cprobe name timeoutMs hto⟩

/-- Witness for C9 at maxWait -3 ms and timeout 0 ms, with probes that
would match at every attempt: no attempt is made. -/
theorem pollers_nonpositive_deadline_witness :
    pollTrinoUntilFound (fun _ => Except.ok ["r"]) (-3) 2 = some (false, 0)
  ∧ pollEsUntilFound (fun _ => Except.ok ["r"]) (-3) 2 = some (false, 0)
  ∧ pollRedisForId (fun _ => some "v") (-3) 2 = some (none, 0)
  ∧ waitForConnectorRunning (fun _ => Except.ok ⟨"RUNNING", []⟩) "conn" 0 =
      some (Except.error (connectorTimeoutMsg "conn" 0), 0) :=
  pollers_nonpositive_deadline (fun _ => Except.ok ["r"]) (fun _ => Except.ok ["r"])
    (fun _ => some "v") (fun _ => Except.ok ⟨"RUNNING", []⟩) "conn"
    (-3) 2 0 (by norm_num) (by norm_num)

/-- C6: for every poller, as soon as a probe attempt returns a non-empty or
positive result (all earlier attempts having thrown or found nothing), the
poller returns at that attempt — exit index `j`, no further attempts and no
further sleep — with the matching data produced by that probe (the Redis
poller returns the probed value itself). -/
theorem pollers_immediate_success
    (tprobe eprobe : Nat → Except Unit (List String)) (rprobe : Nat → Option String)
    (mw itv : Int) (hitv : 0 < itv)
    (jt je jr : Nat) (trows eres : List String) (v : String)
    (hTb : ∀ i, i < jt → ∀ rs, tprobe i = Except.ok rs → rs = [])
    (hTj : tprobe jt = Except.ok trows) (hTn : 0 < trows.length)
    (hTc : (jt : Int) * itv < mw)
    (hEb : ∀ i, i < je → ∀ rs, eprobe i = Except.ok rs → rs = [])
    (hEj : eprobe je = Except.ok eres) (hEn : 0 < eres.length)
    (hEc : (je : Int) * itv < mw)
    (hRb : ∀ i, i < jr → rprobe i = none)
    (hRj : rprobe jr = some v) (hRc : (jr : Int) * itv < mw) :
    pollTrinoUntilFound tprobe mw itv = some (true, jt)
  ∧ pollEsUntilFound eprobe mw itv = some (true, je)
  ∧ pollRedisForId rprobe mw itv = some (some v, jr) :=
  ⟨pollTrino_found tprobe mw itv hitv jt trows hTb hTj hTn hTc,
   pollEs_found eprobe mw itv hitv je eres hEb hEj hEn hEc,
   pollRedis_found rprobe mw itv hitv jr v hRb hRj hRc⟩

/-- Witness for C6: Trino/ES probes match at attempt 0; the Redis probe
returns null at attempt 0 and the value at attempt 1, where the poller
stops. -/
theorem pollers_immediate_success_witness :
    pollTrinoUntilFound (fun _ => Except.ok ["r"]) 10 2 = some (true, 0)
  ∧ pollEsUntilFound (fun _ => Except.ok ["r"]) 10 2 = some (true, 0)
  ∧ pollRedisForId (fun k => match k with | 0 => none | _ + 1 => some "v") 10 2 =
      some (some "v", 1) :=
  pollers_immediate_success (fun _ => Except.ok ["r"]) (fun _ => Except.ok ["r"])
    (fun k => match k with | 0 => none | _ + 1 => some "v") 10 2 (by norm_num)
    0 0 1 ["r"] ["r"] "v"
    (fun i hi => absurd hi (Nat.not_lt_zero i)) rfl (by decide) (by norm_num)
    (fun i hi => absurd hi (Nat.not_lt_zero i)) rfl (by decide) (by norm_num)
    (fun i hi => by
      cases i with
      | zero => rfl
      | succ n => exact absurd hi (by omega))
    rfl (by norm_num)

/-- C5: for every poller, exhausting the deadline is communicated by an
ordinary return value — false for the Trino/ES pollers, null for the Redis
poller — and never by throwing: even in the exception-aware Redis model,
the all-null trace ends in a normal `Except.ok none` return, never in an
`Except.error`. -/
theorem pollers_timeout_sentinel
    (tprobe eprobe : Nat → Except Unit (List String))
    (rprobe : Nat → Except Unit (Option String))
    (mw itv : Int) (hmw : 0 ≤ mw) (hitv : 0 < itv)
    (hT : ∀ k rows, tprobe k = Except.ok rows → rows = [])
    (hE : ∀ k rows, eprobe k = Except.ok rows → rows = [])
    (hR : ∀ k, rprobe k = Except.ok none) :
    (∃ k : Nat, pollTrinoUntilFound tprobe mw itv = some (false, k))
  ∧ (∃ k : Nat, pollEsUntilFound eprobe mw itv = some (false, k))
  ∧ (∃ k : Nat, pollRedisForIdE rprobe mw itv = some (Except.ok none, k))
  ∧ (∀ (k : Nat) (e : Unit), pollRedisForIdE rprobe mw itv ≠ some (Except.error e, k)) := by
  obtain ⟨kt, hkt, _, _⟩ := pollTrino_timeout tprobe mw itv hmw hitv hT
  obtain ⟨ke, hke, _, _⟩ := pollEs_timeout eprobe mw itv hmw hitv hE
  obtain ⟨kr, hkr, _, _⟩ := pollRedisE_timeout rprobe mw itv hmw hitv hR
  refine ⟨⟨kt, hkt⟩, ⟨ke, hke⟩, ⟨kr, hkr⟩, ?_⟩
  intro k e hcontra
  rw [hkr] at hcontra
  simp at hcontra

/-- Witness for C5 at maxWait 5 ms, interval 2 ms with never-matching
probes. -/
theorem pollers_timeout_sentinel_witness :
    (∃ k : Nat, pollTrinoUntilFound (fun _ => Except.ok []) 5 2 = some (false, k))
  ∧ (∃ k : Nat, pollEsUntilFound (fun _ => Except.error ()) 5 2 = some (false, k))
  ∧ (∃ k : Nat, pollRedisForIdE (fun _ => Except.ok none) 5 2 = some (Except.ok none, k))
  ∧ (∀ (k : Nat) (e : Unit),
      pollRedisForIdE (fun _ => Except.ok none) 5 2 ≠ some (Except.error e, k)) :=
  pollers_timeout_sentinel (fun _ => Except.ok []) (fun _ => Except.error ())
    (fun _ => Except.ok none) 5 2 (by norm_num) (by norm_num)
    (fun _ rows h => (Except.ok.inj h).symm)
    (fun _ rows h => Except.noConfusion h)
    (fun _ => rfl)

/-- C4 counterexample: in pollRedisForId (source has no try/catch around
`redis.get`) a probe attempt that throws at attempt 0 — well before the
10 ms deadline — is NOT swallowed: the poller propagates the failure
immediately and never reaches the deadline sentinel, contradicting the
claim that for every poller a thrown transient failure is swallowed and
never surfaced before the deadline. -/
theorem pollRedis_throw_propagates_cex :
    pollRedisForIdE (fun _ => Except.error ()) 10 2 = some (Except.error (), 0)
  ∧ (∀ k : Nat, pollRedisForIdE (fun _ => Except.error ()) 10 2 ≠
      some (Except.ok none, k)) := by
  have h0 : pollRedisForIdE (fun _ => Except.error ()) 10 2 =
      some (Except.error (), 0) := rfl
  refine ⟨h0, ?_⟩
  intro k hcontra
  rw [h0] at hcontra
  simp at hcontra

/-- C4 amended: for pollTrinoUntilFound and pollEsUntilFound a thrown
transient probe failure is swallowed and polling continues to the next
attempt (here: all attempts before the matching one may throw or miss, and
the poller still succeeds); pollRedisForId treats the null return of its
probe as "not found yet" and continues, but a failure thrown by the Redis
probe propagates to the caller at that attempt instead of being
swallowed. -/
theorem pollers_transient_failures_amended
    (tprobe eprobe : Nat → Except Unit (List String))
    (rprobe : Nat → Except Unit (Option String))
    (mw itv : Int) (hitv : 0 < itv) :
    (∀ (j : Nat) (rows : List String), (∀ i, i < j → tprobe i = Except.error ()) →
      tprobe j = Except.ok rows → 0 < rows.length → (j : Int) * itv < mw →
      pollTrinoUntilFound tprobe mw itv = some (true, j))
  ∧ (∀ (j : Nat) (rows : List String), (∀ i, i < j → eprobe i = Except.error ()) →
      eprobe j = Except.ok rows → 0 < rows.length → (j : Int) * itv < mw →
      pollEsUntilFound eprobe mw itv = some (true, j))
  ∧ (∀ (j : Nat) (v : String), (∀ i, i < j → rprobe i = Except.ok none) →
      rprobe j = Except.ok (some v) → (j : Int) * itv < mw →
      pollRedisForIdE rprobe mw itv = some (Except.ok (some v), j))
  ∧ (∀ (j : Nat) (e : Unit), (∀ i, i < j → rprobe i = Except.ok none) →
      rprobe j = Except.error e → (j : Int) * itv < mw →
      pollRedisForIdE rprobe mw itv = some (Except.error e, j)) := by
  refine ⟨?_, ?_, ?_, ?_⟩
  · intro j rows hb hj hn hc
    exact pollTrino_found tprobe mw itv hitv j rows
      (fun i hi rs h => by rw [hb i hi] at h; exact Except.noConfusion h) hj hn hc
  · intro j rows hb hj hn hc
    exact pollEs_found eprobe mw itv hitv j rows
      (fun i hi rs h => by rw [hb i hi] at h; exact Except.noConfusion h) hj hn hc
  · intro j v hb hj hc
    exact pollRedisE_found rprobe mw itv hitv j v hb hj hc
  · intro j e hb hj hc
    exact pollRedisE_raises rprobe mw itv hitv j e hb hj hc

/-- Witness for the amended C4: Trino/ES probes throw at attempt 0 and
match at attempt 1 (the poller proceeds past the failure); the Redis probe
returning null then a value succeeds, and a Redis probe returning null
then throwing propagates the error at attempt 1. -/
theorem pollers_transient_failures_amended_witness :
    pollTrinoUntilFound
      (fun k => match k with | 0 => Except.error () | _ + 1 => Except.ok ["r"]) 10 2 =
      some (true, 1)
  ∧ pollEsUntilFound
      (fun k => match k with | 0 => Except.error () | _ + 1 => Except.ok ["r"]) 10 2 =
      some (true, 1)
  ∧ pollRedisForIdE
      (fun k => match k with | 0 => Except.ok none | _ + 1 => Except.ok (some "v")) 10 2 =
      some (Except.ok (some "v"), 1)
  ∧ pollRedisForIdE
      (fun k => match k with | 0 => Except.ok none | _ + 1 => Except.error ()) 10 2 =
      some (Except.error (), 1) := by
  have before1 : ∀ (γ : Type) (f : Nat → γ) (x : γ) (hx : f 0 = x) (i : Nat), i < 1 → f i = x := by
    intro γ f x hx i hi
    cases i with
    | zero => exact hx
    | succ n => exact absurd hi (by omega)
  refine ⟨?_, ?_, ?_, ?_⟩
  · exact (pollers_transient_failures_amended
      (fun k => match k with | 0 => Except.error () | _ + 1 => Except.ok ["r"])
      (fun _ => Except.ok []) (fun _ => Except.ok none) 10 2 (by norm_num)).1
      1 ["r"] (before1 _ _ _ rfl) rfl (by decide) (by norm_num)
  · exact (pollers_transient_failures_amended (fun _ => Except.ok [])
      (fun k => match k with | 0 => Except.error () | _ + 1 => Except.ok ["r"])
      (fun _ => Except.ok none) 10 2 (by norm_num)).2.1
      1 ["r"] (before1 _ _ _ rfl) rfl (by decide) (by norm_num)
  · exact (pollers_transient_failures_amended (fun _ => Except.ok [])
      (fun _ => Except.ok [])
      (fun k => match k with | 0 => Except.ok none | _ + 1 => Except.ok (some "v"))
      10 2 (by norm_num)).2.2.1
      1 "v" (before1 _ _ _ rfl) rfl (by norm_num)
  · exact (pollers_transient_failures_amended (fun _ => Except.ok [])
      (fun _ => Except.ok [])
      (fun k => match k with | 0 => Except.ok none | _ + 1 => Except.error ())
      10 2 (by norm_num)).2.2.2
      1 () (before1 _ _ _ rfl) rfl (by norm_num)

/-- C2: waitForConnectorRunning returns successfully if and only if, before
the timeout elapses, some status check yields an overall connector state
"RUNNING" with every task state "RUNNING" (`statusRunning`); and the
conjunction over the tasks collection is order-independent: permuting the
tasks does not change `connectorReady`. -/
theorem waitForConnectorRunning_iff_running
    (probe : Nat → Except Unit ConnectorStatus) (name : String) (timeoutMs : Int)
    (st : String) (tasks1 tasks2 : List String) (hperm : tasks1.Perm tasks2) :
    ((∃ k : Nat, waitForConnectorRunning probe name timeoutMs = some (Except.ok (), k)) ↔
      (∃ k : Nat, (k : Int) * 1000 < timeoutMs ∧ statusRunning (probe k) = true))
  ∧ connectorReady ⟨st, tasks1⟩ = connectorReady ⟨st, tasks2⟩ := by
  constructor
  · constructor
    · rintro ⟨k, hk⟩
      obtain ⟨h1, h2⟩ := waitRun_ok_inv probe name timeoutMs k hk
      exact ⟨k, h2, h1⟩
    · rintro ⟨k, hk1, hk2⟩
      have hex : ∃ n : Nat, (n : Int) * 1000 < timeoutMs ∧ statusRunning (probe n) = true :=
        ⟨k, hk1, hk2⟩
      classical
      let k0 := Nat.find hex
      obtain ⟨hP1, hP2⟩ := Nat.find_spec hex
      refine ⟨k0, waitRun_reaches_ok probe name timeoutMs k0 ?_ hP2 hP1⟩
      intro i hik
      have hmin := Nat.find_min hex hik
      have hilt : (i : Int) * 1000 < timeoutMs := by
        have hle : (i : Int) * 1000 ≤ (k0 : Int) * 1000 :=
          mul_le_mul_of_nonneg_right (by exact_mod_cast le_of_lt hik) (by norm_num)
        exact lt_of_le_of_lt hle hP1
      have : ¬ statusRunning (probe i) = true := fun hrun => hmin ⟨hilt, hrun⟩
      simpa using this
  · show (st == "RUNNING" && tasks1.all (fun t => t == "RUNNING")) =
      (st == "RUNNING" && tasks2.all (fun t => t == "RUNNING"))
    rw [all_eq_of_perm tasks1 tasks2 _ hperm]

/-- Witness for C2: an always-running probe with timeout 5000 ms succeeds
at attempt 0, and the readiness check is invariant under swapping two task
states. -/
theorem waitForConnectorRunning_iff_running_witness :
    ((∃ k : Nat, waitForConnectorRunning (fun _ => Except.ok ⟨"RUNNING", ["RUNNING"]⟩)
        "conn" 5000 = some (Except.ok (), k)) ↔
      (∃ k : Nat, (k : Int) * 1000 < 5000 ∧
        statusRunning ((fun _ => Except.ok ⟨"RUNNING", ["RUNNING"]⟩) k) = true))
  ∧ connectorReady ⟨"RUNNING", ["RUNNING", "PAUSED"]⟩ =
      connectorReady ⟨"RUNNING", ["PAUSED", "RUNNING"]⟩ :=
  waitForConnectorRunning_iff_running (fun _ => Except.ok ⟨"RUNNING", ["RUNNING"]⟩)
    "conn" 5000 "RUNNING" ["RUNNING", "PAUSED"] ["PAUSED", "RUNNING"] (by decide)

/-- C10: waitForConnectorRunning declares readiness when the overall state
is "RUNNING" and the tasks collection is empty — `.every` over zero tasks
is vacuously true — so a status probe reporting zero tasks at attempt 0
makes the gate return successfully at once. -/
theorem waitForConnectorRunning_empty_tasks
    (probe : Nat → Except Unit ConnectorStatus) (name : String) (timeoutMs : Int)
    (hto : 0 < timeoutMs) (h0 : probe 0 = Except.ok ⟨"RUNNING", []⟩) :
    connectorReady ⟨"RUNNING", []⟩ = true
  ∧ waitForConnectorRunning probe name timeoutMs = some (Except.ok (), 0) := by
  constructor
  · rfl
  · refine waitRun_reaches_ok probe name timeoutMs 0
      (fun i hi => absurd hi (Nat.not_lt_zero i)) ?_ ?_
    · rw [h0]
      rfl
    · push_cast
      simpa using hto

/-- Witness for C10 at timeout 5000 ms. -/
theorem waitForConnectorRunning_empty_tasks_witness :
    connectorReady ⟨"RUNNING", []⟩ = true
  ∧ waitForConnectorRunning (fun _ => Except.ok ⟨"RUNNING", []⟩) "conn" 5000 =
      some (Except.ok (), 0) :=
  waitForConnectorRunning_empty_tasks (fun _ => Except.ok ⟨"RUNNING", []⟩) "conn" 5000
    (by norm_num) rfl

/-- C7: when waitForConnectorRunning, waitForIndex or waitForDocumentCount
exhausts its timeout, the error it throws is exactly its timeout message —
never a network/connection error from an individual check, which are all
swallowed — and that message contains both the target's identifying name
and the configured timeout value as substrings. -/
theorem wait_helpers_timeout_message
    (cprobe : Nat → Except Unit ConnectorStatus) (iprobe : Nat → Except Unit Bool)
    (dprobe : Nat → Except Unit Nat) (cname iname dname : String)
    (cto ito dto : Int) (expectedCount : Nat) :
    (∀ (e : String) (k : Nat),
      waitForConnectorRunning cprobe cname cto = some (Except.error e, k) →
      e = connectorTimeoutMsg cname cto ∧ containsStr e cname ∧ containsStr e (toString cto))
  ∧ (∀ (e : String) (k : Nat),
      waitForIndex iprobe iname ito = some (Except.error e, k) →
      e = indexTimeoutMsg iname ito ∧ containsStr e iname ∧ containsStr e (toString ito))
  ∧ (∀ (e : String) (k : Nat),
      waitForDocumentCount dprobe dname expectedCount dto = some (Except.error e, k) →
      e = docCountTimeoutMsg dname expectedCount dto ∧
        containsStr e dname ∧ containsStr e (toString dto)) := by
  refine ⟨?_, ?_, ?_⟩
  · intro e k h
    have he := waitRun_err_inv cprobe cname cto k e h
    subst he
    exact ⟨rfl, connectorTimeoutMsg_contains_name cname cto,
      connectorTimeoutMsg_contains_timeout cname cto⟩
  · intro e k h
    have he := waitIndex_err_inv iprobe iname ito k e h
    subst he
    exact ⟨rfl, indexTimeoutMsg_contains_name iname ito,
      indexTimeoutMsg_contains_timeout iname ito⟩
  · intro e k h
    have he := waitDocCount_err_inv dprobe dname expectedCount dto k e h
    subst he
    exact ⟨rfl, docCountTimeoutMsg_contains_name dname expectedCount dto,
      docCountTimeoutMsg_contains_timeout dname expectedCount dto⟩

/-- Witness for C7: probes that always throw, timeout 1500 ms — each helper
times out after 2 checks and throws its timeout message, which contains the
target name and the timeout value. -/
theorem wait_helpers_timeout_message_witness :
    containsStr (connectorTimeoutMsg "conn" 1500) "conn"
  ∧ containsStr (connectorTimeoutMsg "conn" 1500) (toString (1500 : Int))
  ∧ containsStr (indexTimeoutMsg "idx" 1500) "idx"
  ∧ containsStr (indexTimeoutMsg "idx" 1500) (toString (1500 : Int))
  ∧ containsStr (docCountTimeoutMsg "docs" 3 1500) "docs"
  ∧ containsStr (docCountTimeoutMsg "docs" 3 1500) (toString (1500 : Int)) := by
  obtain ⟨h1, h2, h3⟩ := wait_helpers_timeout_message
    (fun _ => Except.error ()) (fun _ => Except.error ()) (fun _ => Except.error ())
    "conn" "idx" "docs" 1500 1500 1500 3
  have hc := h1 (connectorTimeoutMsg "conn" 1500) 2 rfl
  have hi := h2 (indexTimeoutMsg "idx" 1500) 2 rfl
  have hd := h3 (docCountTimeoutMsg "docs" 3 1500) 2 rfl
  exact ⟨hc.2.1, hc.2.2, hi.2.1, hi.2.2, hd.2.1, hd.2.2⟩

/-- C3: createConnector surfaces every response to the caller unchanged —
a non-201/non-409 status is visible to the caller as an unexpected
failure, not swallowed, and the single POST is never retried — while the
registration success predicate (from the test asserting on the response)
accepts exactly the "created" (201) and "already exists" (409) status
codes. -/
theorem createConnector_idempotent_accept (r : ConnResponse) :
    createConnector r = r
  ∧ (registrationAccepted r = true ↔ (r.status = 201 ∨ r.status = 409)) := by
  refine ⟨rfl, ?_⟩
  unfold registrationAccepted
  simp [List.contains]

/-- Pages before the first columns-carrying page that also carry no data
leave the accumulators untouched. -/
theorem executeTrinoQueryAux_skip (pre : List (TrinoPage α))
    (hpre : ∀ p ∈ pre, p.columns = none ∧ p.data = none) :
    ∀ (rest : List (TrinoPage α)) (acc : List (List (String × Option α))),
      executeTrinoQueryAux (pre ++ rest) [] acc = executeTrinoQueryAux rest [] acc := by
  induction pre with
  | nil => intro rest acc; rfl
  | cons p pre ih =>
    intro rest acc
    obtain ⟨hc, hd⟩ := hpre p (List.mem_cons_self p pre)
    simp only [List.cons_append, executeTrinoQueryAux, hc, hd]
    exact ih (fun q hq => hpre q (List.mem_cons_of_mem p hq)) rest acc

/-- C8: executeTrinoQuery materializes the whole paginated result eagerly:
with pages following the result protocol (any pages before the first
columns-carrying page are empty, and that page carries nonempty column
metadata `cs`), it returns exactly the column metadata of that first
carrying page together with all data rows of every page concatenated in
arrival order, each row converted to an object by positionally pairing its
values with the recorded column names (`rowToObj cs`). -/
theorem executeTrinoQuery_materializes {α : Type} (pre rest : List (TrinoPage α))
    (page0 : TrinoPage α) (cs : List TrinoColumn)
    (hpre : ∀ p ∈ pre, p.columns = none ∧ p.data = none)
    (hc0 : page0.columns = some cs) (hcs : cs ≠ []) :
    executeTrinoQuery (pre ++ page0 :: rest) =
      (cs, (pageRows (page0 :: rest)).map (rowToObj cs)) := by
  unfold executeTrinoQuery
  rw [executeTrinoQueryAux_skip pre hpre (page0 :: rest) []]
  cases hd : page0.data with
  | some rows =>
    simp only [executeTrinoQueryAux, hc0, hd, List.length_nil]
    norm_num
    rw [executeTrinoQueryAux_fixed rest cs hcs]
    simp [pageRows, hd]
  | none =>
    simp only [executeTrinoQueryAux, hc0, hd, List.length_nil]
    norm_num
    rw [executeTrinoQueryAux_fixed rest cs hcs]
    simp [pageRows, hd]

/-- Witness for C8: an empty first page, then a page carrying two columns
and one row, then a page carrying only a row that is shorter than the
column list (its missing cell surfaces as `none`, JavaScript undefined). -/
theorem executeTrinoQuery_materializes_witness :
    executeTrinoQuery (α := Nat)
      ([⟨none, none⟩] ++ ⟨some [⟨"id", "integer"⟩, ⟨"email", "varchar"⟩], some [[1, 7]]⟩ ::
        [⟨none, some [[2]]⟩]) =
      ([⟨"id", "integer"⟩, ⟨"email", "varchar"⟩],
       [[("id", some 1), ("email", some 7)], [("id", some 2), ("email", none)]]) :=
  (executeTrinoQuery_materializes [⟨none, none⟩] [⟨none, some [[2]]⟩]
    ⟨some [⟨"id", "integer"⟩, ⟨"email", "varchar"⟩], some [[1, 7]]⟩
    [⟨"id", "integer"⟩, ⟨"email", "varchar"⟩]
    (by
      intro p hp
      simp only [List.mem_singleton] at hp
      subst hp
      exact ⟨rfl, rfl⟩)
    rfl (by simp)).trans (by rfl)
